import Mathlib

/-!
A shallow embedding of the dispatch / session-routing / telemetry core of
the GitHub MCP HTTP server (`src/http-server.ts`), together with theorems
settling the specification's claims about it.

Modelling conventions:
* JavaScript strings are Lean `String`s (lists of characters); the
  code-unit/character distinction of `slice` is immaterial to the claims.
* JavaScript's `a || b` on strings (empty string falsy) is `jsOrStr`.
* `Record<string, number>` counters are functions `String → Nat`.
* The `Map<string, StreamableHTTPServerTransport>` session cache is an
  association list with JavaScript `Map` get/set semantics.
* Object allocation identity is modelled by a monotone counter: every
  construction of a transport/server/client triple consumes one fresh id.
-/

namespace McpGithub

/-- JavaScript `a || b` for strings: the empty string is falsy. -/
def jsOrStr (a b : String) : String :=
  if a = "" then b else a

/-- Model of `const GITHUB_TOKEN = process.env.GITHUB_PERSONAL_ACCESS_TOKEN || ''`
(`http-server.ts:28`): an absent environment variable yields the empty string. -/
def githubTokenOf (env : Option String) : String :=
  jsOrStr (env.getD "") ""

/-- Model of the credential resolution at `http-server.ts:494-496`:
`(req.query.token as string) || (req.headers['x-github-token'] as string) || GITHUB_TOKEN`.
An absent query parameter / header is `none`; JavaScript `undefined` and `''`
are both falsy for `||`, so absence is conflated with emptiness by `getD ""`. -/
def resolveToken (queryToken : Option String) (headerToken : Option String)
    (envToken : String) : String :=
  jsOrStr (queryToken.getD "") (jsOrStr (headerToken.getD "") envToken)

/-- Model of JavaScript `s.slice(0, n)` (characters for code units). -/
def jsTake (s : String) (n : Nat) : String :=
  ⟨s.data.take n⟩

/-- Model of `userAgent.split('/')[0]`: the part of the string before the
first `/` (the whole string when no `/` occurs). -/
def splitSlashHead (s : String) : String :=
  ⟨s.data.takeWhile (fun c => c != '/')⟩

/-- Model of `userAgent.split('/')[0] || userAgent.slice(0, 50)`
(`http-server.ts:79`). -/
def shortUserAgent (ua : String) : String :=
  jsOrStr (splitSlashHead ua) (jsTake ua 50)

/-- The user-agent key as the specification's words describe it: the substring
before the first `/`, or, when the user-agent contains no `/`, its first 50
characters. Written from the spec, to be compared with `shortUserAgent`. -/
def specUserAgentKey (ua : String) : String :=
  if '/' ∈ ua.data then splitSlashHead ua else jsTake ua 50

/-- Does `l` begin with `pat`? -/
def leadsWith : List Char → List Char → Bool
  | [], _ => true
  | _ :: _, [] => false
  | a :: as, b :: bs => a == b && leadsWith as bs

/-- Does `pat` occur as a contiguous run inside `l`? -/
def hasSub (pat : List Char) : List Char → Bool
  | [] => leadsWith pat []
  | c :: rest => leadsWith pat (c :: rest) || hasSub pat rest

/-- One entry of `analytics.recentToolCalls` (`http-server.ts:38`); the ISO
timestamp is modelled as an abstract tick. -/
structure ToolCallEntry where
  tool : String
  timestamp : Nat
  clientIp : String
deriving DecidableEq, Repr

/-- The `Analytics` state (`http-server.ts:31-42`); `Record<string, number>`
maps are modelled as total functions defaulting to 0. -/
structure Analytics where
  serverStartTime : Nat
  totalRequests : Nat
  totalToolCalls : Nat
  requestsByMethod : String → Nat
  requestsByEndpoint : String → Nat
  toolCalls : String → Nat
  recentToolCalls : List ToolCallEntry
  clientsByIp : String → Nat
  clientsByUserAgent : String → Nat
  hourlyRequests : String → Nat

/-- The initial analytics object (`http-server.ts:44-55`). -/
def initialAnalytics : Analytics where
  serverStartTime := 0
  totalRequests := 0
  totalToolCalls := 0
  requestsByMethod := fun _ => 0
  requestsByEndpoint := fun _ => 0
  toolCalls := fun _ => 0
  recentToolCalls := []
  clientsByIp := fun _ => 0
  clientsByUserAgent := fun _ => 0
  hourlyRequests := fun _ => 0

/-- `m[k] = (m[k] || 0) + 1` on a counter map. -/
def bump (m : String → Nat) (k : String) : String → Nat :=
  fun k' => if k' = k then m k + 1 else m k'

/-- Model of `getClientIp` (`http-server.ts:57-61`):
`(req.headers['x-forwarded-for'])?.split(',')[0]?.trim() || req.socket.remoteAddress || 'unknown'`. -/
def getClientIp (xForwardedFor remoteAddress : Option String) : String :=
  match xForwardedFor with
  | some s => jsOrStr (((s.splitOn ",").headD "").trim)
      (jsOrStr (remoteAddress.getD "") "unknown")
  | none => jsOrStr (remoteAddress.getD "") "unknown"

/-- Model of `trackRequest` (`http-server.ts:63-85`). The hour bucket key is
computed from the wall clock in the source and is passed in here. -/
def trackRequest (a : Analytics) (method endpoint : String)
    (xForwardedFor remoteAddress userAgentHeader : Option String)
    (hourKey : String) : Analytics :=
  let clientIp := getClientIp xForwardedFor remoteAddress
  let userAgent := jsOrStr (userAgentHeader.getD "") "unknown"
  let shortUA := shortUserAgent userAgent
  { a with
    totalRequests := a.totalRequests + 1
    requestsByMethod := bump a.requestsByMethod method
    requestsByEndpoint := bump a.requestsByEndpoint endpoint
    clientsByIp := bump a.clientsByIp clientIp
    clientsByUserAgent := bump a.clientsByUserAgent shortUA
    hourlyRequests := bump a.hourlyRequests hourKey }

/-- Model of `trackToolCall` (`http-server.ts:87-100`): unshift the new entry,
then pop the last entry when the list exceeds 100. -/
def trackToolCall (a : Analytics) (toolName clientIp : String)
    (timestamp : Nat) : Analytics :=
  let pushed : List ToolCallEntry :=
    { tool := toolName, timestamp := timestamp, clientIp := clientIp } :: a.recentToolCalls
  { a with
    totalToolCalls := a.totalToolCalls + 1
    toolCalls := bump a.toolCalls toolName
    recentToolCalls := if pushed.length > 100 then pushed.dropLast else pushed }

/-- One mutation of the analytics state: an inbound request
(`trackRequest`) or a tool call (`trackToolCall`). -/
inductive AnalyticsOp where
  | req (method endpoint : String)
      (xForwardedFor remoteAddress userAgentHeader : Option String) (hourKey : String)
  | call (toolName clientIp : String) (timestamp : Nat)

/-- Apply one analytics mutation. -/
def applyOp (a : Analytics) : AnalyticsOp → Analytics
  | .req m e xff ra ua h => trackRequest a m e xff ra ua h
  | .call t ip ts => trackToolCall a t ip ts

/-- Apply a chronological sequence of analytics mutations. -/
def runOps (a : Analytics) (ops : List AnalyticsOp) : Analytics :=
  ops.foldl applyOp a

/-- The recent-calls entry recorded by an operation, if any. -/
def entryOf : AnalyticsOp → Option ToolCallEntry
  | .req _ _ _ _ _ _ => none
  | .call t ip ts => some { tool := t, timestamp := ts, clientIp := ip }

/-- All entries a chronological operation sequence pushes, newest first. -/
def entriesNewestFirst (ops : List AnalyticsOp) : List ToolCallEntry :=
  (ops.filterMap entryOf).reverse

/-- A cached Session: the `StreamableHTTPServerTransport` connected to the
`McpServer` built by `createMcpServer(token)` (`http-server.ts:117-154`,
`517-526`).  `id` is the allocation identity of the
transport/server/registry/client bundle (one fresh id per construction);
`clientAuth` is the token handed to `new Octokit({ auth: token })` inside
`createMcpServer`. -/
structure Session where
  id : Nat
  clientAuth : String
deriving DecidableEq, Repr

/-- JavaScript `Map.get` on the `transports` map (`http-server.ts:487`). -/
def lookupAssoc (m : List (String × Session)) (k : String) : Option Session :=
  match m with
  | [] => none
  | (k', v') :: rest => if k' = k then some v' else lookupAssoc rest k

/-- JavaScript `Map.set` on the `transports` map: replace the binding when the
key is present, append otherwise. -/
def setAssoc (m : List (String × Session)) (k : String) (v : Session) :
    List (String × Session) :=
  match m with
  | [] => [(k, v)]
  | (k', v') :: rest => if k' = k then (k, v) :: rest else (k', v') :: setAssoc rest k v

/-- The parts of `req.body` the dispatcher inspects (`http-server.ts:511`). -/
structure RpcBody where
  method : Option String
  paramsName : Option String
deriving DecidableEq, Repr

/-- Model of the guard `req.body?.method === 'tools/call' && req.body?.params?.name`
(`http-server.ts:511`): JavaScript truthiness makes an empty tool name fail
the guard. -/
def isToolCallBody : Option RpcBody → Bool
  | some b => b.method == some "tools/call" && (b.paramsName.getD "") != ""
  | none => false

/-- `req.body.params.name` as read at `http-server.ts:512`. -/
def toolNameOf (b : Option RpcBody) : String :=
  (b.bind (·.paramsName)).getD ""

/-- The parts of an inbound `/mcp` request the handler reads. -/
structure McpRequest where
  httpMethod : String
  queryToken : Option String
  headerToken : Option String
  body : Option RpcBody
  xForwardedFor : Option String
  remoteAddress : Option String
  userAgentHeader : Option String
  hourKey : String
  timestamp : Nat
deriving DecidableEq, Repr

/-- A JSON-RPC error member, `{ code, message }`. -/
structure JsonRpcError where
  code : Int
  message : String
deriving DecidableEq, Repr

/-- The JSON-RPC error body the handler sends: `{ jsonrpc, error, id }`
with `id : null` modelled as `none`. -/
structure RpcErrorBody where
  jsonrpc : String
  error : JsonRpcError
  id : Option Nat
deriving DecidableEq, Repr

/-- The 401 message string of `http-server.ts:503`, verbatim. -/
def msg401 : String :=
  "GitHub token required. Provide via ?token=YOUR_TOKEN query param, X-GitHub-Token header, or GITHUB_PERSONAL_ACCESS_TOKEN environment variable."

/-- The 401 response body of `http-server.ts:499-506`. -/
def body401 : RpcErrorBody :=
  { jsonrpc := "2.0", error := { code := -32001, message := msg401 }, id := none }

/-- The 500 response body of `http-server.ts:532-539`. -/
def body500 : RpcErrorBody :=
  { jsonrpc := "2.0", error := { code := -32603, message := "Internal server error" }, id := none }

/-- One write on the HTTP response object: either an explicit
`res.status(..).json(..)` from the handler, or the bytes the transport's
`handleRequest` writes itself. -/
inductive WriteEvent where
  | statusJson (status : Nat) (body : RpcErrorBody)
  | transportBytes (sessionId : Nat)
deriving DecidableEq, Repr

/-- Observable steps of one pass through the `/mcp` handler, in order. -/
inductive Event where
  | trackedRequest
  | rejected
  | trackedToolCall (tool clientIp : String)
  | sessionCreated (id : Nat) (token : String)
  | sessionReused (id : Nat) (token : String)
  | forwarded (id : Nat)
deriving DecidableEq, Repr

/-- The collaborator outcome of `transport.handleRequest(req, res, req.body)`:
it either completes, or throws with `res.headersSent` telling whether response
bytes were already written. -/
inductive ForwardOutcome where
  | ok
  | throwErr (headersSent : Bool)
deriving DecidableEq, Repr

/-- Response writes produced by forwarding into session `s` with the given
outcome, including the catch block of `http-server.ts:529-541`: a throw with
nothing sent yet yields the 500 body; a throw after bytes were sent writes
nothing further. -/
def forwardWrites (s : Session) : ForwardOutcome → List WriteEvent
  | .ok => [.transportBytes s.id]
  | .throwErr true => [.transportBytes s.id]
  | .throwErr false => [.statusJson 500 body500]

/-- Process-wide mutable state read and written by the `/mcp` handler. -/
structure ServerState where
  transports : List (String × Session)
  nextId : Nat
  analytics : Analytics

/-- Everything one pass through the `/mcp` handler produces. -/
structure HandleResult where
  state : ServerState
  writes : List WriteEvent
  events : List Event
  session : Option Session

/-- Model of the `app.all('/mcp')` handler (`http-server.ts:490-542`), run
atomically (request handling without interleaving): track the request,
resolve the token, reject with 401 when it is empty, track a tool call when
the body is a tool invocation, then reuse or construct the session for the
token and forward the payload into it. -/
def handleMcp (st : ServerState) (req : McpRequest) (envToken : String)
    (outcome : ForwardOutcome) : HandleResult :=
  let a1 := trackRequest st.analytics req.httpMethod "/mcp" req.xForwardedFor
    req.remoteAddress req.userAgentHeader req.hourKey
  let token := resolveToken req.queryToken req.headerToken envToken
  if token = "" then
    { state := { st with analytics := a1 }
      writes := [.statusJson 401 body401]
      events := [.trackedRequest, .rejected]
      session := none }
  else
    let tracked := isToolCallBody req.body
    let clientIp := getClientIp req.xForwardedFor req.remoteAddress
    let a2 := if tracked then
        trackToolCall a1 (toolNameOf req.body) clientIp req.timestamp
      else a1
    let evs := Event.trackedRequest ::
      (if tracked then [Event.trackedToolCall (toolNameOf req.body) clientIp] else [])
    match lookupAssoc st.transports token with
    | some s =>
      { state := { st with analytics := a2 }
        writes := forwardWrites s outcome
        events := evs ++ [.sessionReused s.id token, .forwarded s.id]
        session := some s }
    | none =>
      let s : Session := { id := st.nextId, clientAuth := token }
      { state := { st with
          analytics := a2
          transports := setAssoc st.transports token s
          nextId := st.nextId + 1 }
        writes := forwardWrites s outcome
        events := evs ++ [.sessionCreated s.id token, .forwarded s.id]
        session := some s }

/-!
Event-loop model of the `/mcp` handler for concurrent requests.  The handler
body runs synchronously from the cache lookup (`transports.get(token)`,
`http-server.ts:517`) through the construction of a new transport and server
on a miss, and suspends at `await mcpServer.server.connect(transport)`
(`http-server.ts:524`); the resumed continuation performs
`transports.set(token, transport)` and then suspends again at
`await transport.handleRequest(...)`.  A schedule picks which suspended
request advances at each step.
-/

/-- Where a request handler stands relative to its suspension points. -/
inductive ThreadPC where
  | start
  | connecting (s : Session)
  | handling (s : Session)
  | done (s : Session)
deriving DecidableEq, Repr

/-- One in-flight `/mcp` request: its resolved token and its progress. -/
structure Thread where
  token : String
  pc : ThreadPC
deriving DecidableEq, Repr

/-- Shared state plus all in-flight requests. -/
structure RaceState where
  transports : List (String × Session)
  nextId : Nat
  threads : List Thread
deriving DecidableEq, Repr

/-- Advance one request handler by one synchronous segment.  At `start` the
cache is consulted: a hit proceeds directly to forwarding with the cached
session; a miss constructs a fresh session (consuming an allocation id) and
suspends at the connect await — before the cache is updated.  The
`connecting` segment stores the session in the cache and begins forwarding. -/
def stepThread (cache : List (String × Session)) (nextId : Nat) (t : Thread) :
    List (String × Session) × Nat × Thread :=
  match t.pc with
  | .start =>
    match lookupAssoc cache t.token with
    | some s => (cache, nextId, { t with pc := .handling s })
    | none =>
      let s : Session := { id := nextId, clientAuth := t.token }
      (cache, nextId + 1, { t with pc := .connecting s })
  | .connecting s => (setAssoc cache t.token s, nextId, { t with pc := .handling s })
  | .handling s => (cache, nextId, { t with pc := .done s })
  | .done _ => (cache, nextId, t)

/-- Run one scheduler step: advance thread `i` (no-op for an invalid index). -/
def raceStep (st : RaceState) (i : Nat) : RaceState :=
  match st.threads[i]? with
  | none => st
  | some t =>
    let r := stepThread st.transports st.nextId t
    { transports := r.1, nextId := r.2.1, threads := st.threads.set i r.2.2 }

/-- Run a whole schedule of thread indices. -/
def raceRun (st : RaceState) (sched : List Nat) : RaceState :=
  sched.foldl raceStep st

/-- Two first-requests bearing the same previously-unseen token `"T"`,
against an empty cache. -/
def raceInit2 : RaceState :=
  { transports := []
    nextId := 0
    threads := [{ token := "T", pc := .start }, { token := "T", pc := .start }] }

/-! ### Helper lemmas -/

theorem jsOrStr_of_ne {a : String} (b : String) (h : a ≠ "") : jsOrStr a b = a := by
  simp [jsOrStr, h]

theorem jsOrStr_empty (b : String) : jsOrStr "" b = b := rfl

/-- `trackRequest` leaves the tool-call telemetry untouched. -/
theorem trackRequest_toolFields (a : Analytics) (m e : String)
    (xff ra ua : Option String) (hk : String) :
    (trackRequest a m e xff ra ua hk).recentToolCalls = a.recentToolCalls ∧
    (trackRequest a m e xff ra ua hk).totalToolCalls = a.totalToolCalls ∧
    (trackRequest a m e xff ra ua hk).toolCalls = a.toolCalls :=
  ⟨rfl, rfl, rfl⟩

/-- `trackToolCall` on a list that is a 100-truncation pushes the new entry to
the front of the untruncated history and re-truncates. -/
theorem trackToolCall_recent (a : Analytics) (t ip : String) (ts : Nat)
    (P : List ToolCallEntry) (h : a.recentToolCalls = P.take 100) :
    (trackToolCall a t ip ts).recentToolCalls =
      (({ tool := t, timestamp := ts, clientIp := ip } : ToolCallEntry) :: P).take 100 := by
  simp only [trackToolCall, h]
  by_cases hP : 100 ≤ P.length
  · have hlen : (P.take 100).length = 100 := by
      simp [List.length_take, Nat.min_eq_left hP]
    rw [if_pos (by simp [hlen])]
    rw [List.dropLast_eq_take]
    simp only [List.length_cons, hlen]
    rw [List.take_succ_cons, List.take_succ_cons, List.take_take]
    norm_num
  · have hPt : P.take 100 = P := List.take_of_length_le (by omega)
    rw [hPt, if_neg (by simp; omega)]
    rw [List.take_of_length_le (by simp; omega)]

/-- The first entry after `trackToolCall` is always the entry just recorded. -/
theorem trackToolCall_head (a : Analytics) (t ip : String) (ts : Nat) :
    (trackToolCall a t ip ts).recentToolCalls.head? =
      some { tool := t, timestamp := ts, clientIp := ip } := by
  simp only [trackToolCall]
  cases h : a.recentToolCalls with
  | nil => simp
  | cons x xs => split <;> simp [List.dropLast]

/-- Running a chronological sequence of analytics mutations from any
100-truncated recent-calls list yields the 100-truncation of the full
newest-first history. -/
theorem runOps_recent (ops : List AnalyticsOp) : ∀ (a : Analytics) (P : List ToolCallEntry),
    a.recentToolCalls = P.take 100 →
    (runOps a ops).recentToolCalls = (entriesNewestFirst ops ++ P).take 100 := by
  induction ops with
  | nil =>
    intro a P h
    simpa [runOps, entriesNewestFirst] using h
  | cons op ops ih =>
    intro a P h
    cases op with
    | req m e xff ra ua hk =>
      have h1 : (applyOp a (.req m e xff ra ua hk)).recentToolCalls = P.take 100 := by
        simpa [applyOp, trackRequest] using h
      have h2 := ih _ P h1
      simpa [runOps, entriesNewestFirst, List.filterMap_cons, entryOf] using h2
    | call t ip ts =>
      have h1 : (applyOp a (.call t ip ts)).recentToolCalls =
          (({ tool := t, timestamp := ts, clientIp := ip } : ToolCallEntry) :: P).take 100 := by
        simpa [applyOp] using trackToolCall_recent a t ip ts P h
      have h2 := ih _ _ h1
      simpa [runOps, entriesNewestFirst, List.filterMap_cons, entryOf,
        List.append_assoc] using h2

/-- Every cached session's bound client credential equals its cache key. -/
def cacheConsistent (m : List (String × Session)) : Prop :=
  ∀ p ∈ m, (p.2).clientAuth = p.1

/-- Every cache key is a non-empty token. -/
def cacheKeysNonEmpty (m : List (String × Session)) : Prop :=
  ∀ p ∈ m, p.1 ≠ ""

theorem lookupAssoc_consistent {m : List (String × Session)}
    (hm : cacheConsistent m) {k : String} {s : Session}
    (h : lookupAssoc m k = some s) : s.clientAuth = k := by
  induction m with
  | nil => simp [lookupAssoc] at h
  | cons p rest ih =>
    obtain ⟨k', v'⟩ := p
    by_cases hk : k' = k
    · rw [lookupAssoc, if_pos hk] at h
      injection h with h2
      subst h2
      have h3 := hm (k', v') (List.mem_cons_self _ _)
      exact hk ▸ h3
    · rw [lookupAssoc, if_neg hk] at h
      exact ih (fun p hp => hm p (List.mem_cons_of_mem _ hp)) h

theorem setAssoc_consistent {m : List (String × Session)}
    (hm : cacheConsistent m) {k : String} {s : Session}
    (hs : s.clientAuth = k) : cacheConsistent (setAssoc m k s) := by
  induction m with
  | nil => intro p hp; simp [setAssoc] at hp; simp [hp, hs]
  | cons q rest ih =>
    obtain ⟨k', v'⟩ := q
    by_cases hk : k' = k
    · rw [setAssoc, if_pos hk]
      intro p hp
      rcases List.mem_cons.mp hp with h1 | h1
      · simp [h1, hs]
      · exact hm p (List.mem_cons_of_mem _ h1)
    · rw [setAssoc, if_neg hk]
      intro p hp
      rcases List.mem_cons.mp hp with h1 | h1
      · exact hm p (by simp [h1])
      · exact ih (fun p hp => hm p (List.mem_cons_of_mem _ hp)) p h1

theorem setAssoc_keysNonEmpty {m : List (String × Session)}
    (hm : cacheKeysNonEmpty m) {k : String} (hk : k ≠ "") (s : Session) :
    cacheKeysNonEmpty (setAssoc m k s) := by
  induction m with
  | nil => intro p hp; simp [setAssoc] at hp; simp [hp, hk]
  | cons q rest ih =>
    obtain ⟨k', v'⟩ := q
    by_cases hkk : k' = k
    · rw [setAssoc, if_pos hkk]
      intro p hp
      rcases List.mem_cons.mp hp with h1 | h1
      · simp [h1, hk]
      · exact hm p (List.mem_cons_of_mem _ h1)
    · rw [setAssoc, if_neg hkk]
      intro p hp
      rcases List.mem_cons.mp hp with h1 | h1
      · exact hm p (by simp [h1])
      · exact ih (fun p hp => hm p (List.mem_cons_of_mem _ hp)) p h1

/-! ### Claims -/

/-- C1: Credential resolution follows the fixed precedence of
`http-server.ts:494-496`: the resolved token is the query parameter `token`
when that yields a non-empty string, otherwise the `X-GitHub-Token` header
when non-empty, otherwise the process-configured default token; resolution
fails (yields the empty string) exactly when all three sources are
absent/empty. -/
theorem c1_credential_precedence (q h : Option String) (d : String) :
    (q.getD "" ≠ "" → resolveToken q h d = q.getD "") ∧
    (q.getD "" = "" → h.getD "" ≠ "" → resolveToken q h d = h.getD "") ∧
    (q.getD "" = "" → h.getD "" = "" → resolveToken q h d = d) ∧
    (resolveToken q h d = "" ↔ (q.getD "" = "" ∧ h.getD "" = "" ∧ d = "")) := by
  unfold resolveToken jsOrStr
  refine ⟨fun hq => by simp [hq], fun hq hh => by simp [hq, hh],
    fun hq hh => by simp [hq, hh], ?_⟩
  constructor
  · intro he
    by_cases hq : q.getD "" = "" <;> by_cases hh : h.getD "" = "" <;>
      simp_all
  · rintro ⟨hq, hh, hd⟩
    simp [hq, hh, hd]

/-- Witness for C1 at a concrete input: a non-empty query token wins over a
populated header and default. -/
theorem c1_credential_precedence_witness :
    (some "qtok" : Option String).getD "" ≠ "" ∧
    resolveToken (some "qtok") (some "htok") "dtok" = "qtok" :=
  ⟨by decide, (c1_credential_precedence (some "qtok") (some "htok") "dtok").1 (by decide)⟩

/-- C6: After every sequence of `trackRequest`/`trackToolCall` operations from
the initial analytics state, `recentToolCalls` is exactly the 100-entry
truncation of the newest-first history of recorded tool calls — hence at most
100 entries, ordered most-recent-first, each call pushed to the front with the
oldest dropped when the bound is exceeded — and the entry just recorded is
always at the front. -/
theorem c6_recent_calls_bounded (ops : List AnalyticsOp) :
    (runOps initialAnalytics ops).recentToolCalls = (entriesNewestFirst ops).take 100 ∧
    (runOps initialAnalytics ops).recentToolCalls.length ≤ 100 ∧
    (∀ (a : Analytics) (t ip : String) (ts : Nat),
      (trackToolCall a t ip ts).recentToolCalls.head? =
        some { tool := t, timestamp := ts, clientIp := ip }) := by
  have h := runOps_recent ops initialAnalytics [] (by simp [initialAnalytics])
  simp only [List.append_nil] at h
  refine ⟨h, ?_, trackToolCall_head⟩
  rw [h]
  simp [List.length_take]

/-- Witness for C6 at a concrete input: two recorded calls appear newest
first. -/
theorem c6_recent_calls_bounded_witness :
    (runOps initialAnalytics [.call "hello" "1.1.1.1" 1, .call "get_issue" "2.2.2.2" 2]).recentToolCalls =
      (entriesNewestFirst [.call "hello" "1.1.1.1" 1, .call "get_issue" "2.2.2.2" 2]).take 100 ∧
    (runOps initialAnalytics [.call "hello" "1.1.1.1" 1, .call "get_issue" "2.2.2.2" 2]).recentToolCalls.length ≤ 100 ∧
    (∀ (a : Analytics) (t ip : String) (ts : Nat),
      (trackToolCall a t ip ts).recentToolCalls.head? =
        some { tool := t, timestamp := ts, clientIp := ip }) :=
  c6_recent_calls_bounded [.call "hello" "1.1.1.1" 1, .call "get_issue" "2.2.2.2" 2]

/-- A user-agent of 51 identical characters containing no `/`. -/
def longNoSlashUA : String := ⟨List.replicate 51 'a'⟩

/-- C7 counterexample: the claim says a user-agent with no `/` is keyed by its
first 50 characters, but the code (`userAgent.split('/')[0] || userAgent.slice(0, 50)`)
keys a 51-character slash-free user-agent by the whole string: `split('/')[0]`
is the entire string and is truthy, so the 50-character truncation is never
reached. -/
theorem c7_user_agent_key_cex :
    ('/' ∉ longNoSlashUA.data) ∧
    shortUserAgent longNoSlashUA ≠ specUserAgentKey longNoSlashUA ∧
    shortUserAgent longNoSlashUA = longNoSlashUA ∧
    specUserAgentKey longNoSlashUA = jsTake longNoSlashUA 50 ∧
    longNoSlashUA ≠ jsTake longNoSlashUA 50 := by decide

/-- C7 (amended): the user-agent telemetry key equals the substring of the
user-agent before its first `/` whenever that substring is non-empty — in
particular the entire, untruncated user-agent when it contains no `/` — and
equals the first 50 characters of the user-agent only when the substring
before the first `/` is empty (user-agent empty or starting with `/`). -/
theorem c7_user_agent_key_amended (ua : String) :
    (splitSlashHead ua ≠ "" → shortUserAgent ua = splitSlashHead ua) ∧
    (splitSlashHead ua = "" → shortUserAgent ua = jsTake ua 50) ∧
    ('/' ∉ ua.data → shortUserAgent ua = ua) := by
  refine ⟨fun h => jsOrStr_of_ne _ h, fun h => by simp [shortUserAgent, h, jsOrStr], fun h => ?_⟩
  have htw : ua.data.takeWhile (fun c => c != '/') = ua.data :=
    List.takeWhile_eq_self_iff.mpr (fun x hx => by
      simp only [bne_iff_ne, ne_eq]
      intro he
      exact h (he ▸ hx))
  have hs : splitSlashHead ua = ua := by
    simp only [splitSlashHead, htw]
  rw [shortUserAgent, hs, jsOrStr]
  by_cases hua : ua = ""
  · subst hua; rfl
  · simp [hua]

/-- Witness for C7 (amended) at a concrete input: `"curl"` has a non-empty
before-slash part and is keyed by it. -/
theorem c7_user_agent_key_amended_witness :
    splitSlashHead "curl" ≠ "" ∧ shortUserAgent "curl" = splitSlashHead "curl" :=
  ⟨by decide, (c7_user_agent_key_amended "curl").1 (by decide)⟩

/-- C4: When credential resolution fails, the `/mcp` handler responds with
HTTP 401 and a JSON-RPC error body with code `-32001` and `id: null` whose
message names all three credential-supply methods (`?token=` query parameter,
`X-GitHub-Token` header, `GITHUB_PERSONAL_ACCESS_TOKEN` environment variable),
and neither fetches nor creates a session (`http-server.ts:498-508`). -/
theorem c4_missing_token_rejected (st : ServerState) (req : McpRequest)
    (envToken : String) (outcome : ForwardOutcome)
    (h : resolveToken req.queryToken req.headerToken envToken = "") :
    (handleMcp st req envToken outcome).writes = [.statusJson 401 body401] ∧
    body401.error.code = -32001 ∧
    body401.id = none ∧
    hasSub "?token=".data msg401.data = true ∧
    hasSub "X-GitHub-Token".data msg401.data = true ∧
    hasSub "GITHUB_PERSONAL_ACCESS_TOKEN".data msg401.data = true ∧
    (handleMcp st req envToken outcome).state.transports = st.transports ∧
    (handleMcp st req envToken outcome).state.nextId = st.nextId ∧
    (handleMcp st req envToken outcome).session = none := by
  simp only [handleMcp, h, if_pos rfl]
  exact ⟨rfl, rfl, rfl, by decide, by decide, by decide, rfl, rfl, rfl⟩

/-- Witness for C4 at a concrete input: no query token, no header token, no
environment default. -/
theorem c4_missing_token_rejected_witness :
    resolveToken none none "" = "" ∧
    (handleMcp { transports := [], nextId := 0, analytics := initialAnalytics }
        { httpMethod := "POST", queryToken := none, headerToken := none,
          body := none, xForwardedFor := none, remoteAddress := none,
          userAgentHeader := none, hourKey := "h", timestamp := 0 } "" .ok).writes =
      [.statusJson 401 body401] ∧
    body401.error.code = -32001 := by
  refine ⟨by decide, ?_, ?_⟩
  · exact (c4_missing_token_rejected _ _ "" .ok (by decide)).1
  · exact (c4_missing_token_rejected { transports := [], nextId := 0, analytics := initialAnalytics }
      { httpMethod := "POST", queryToken := none, headerToken := none,
        body := none, xForwardedFor := none, remoteAddress := none,
        userAgentHeader := none, hourKey := "h", timestamp := 0 } "" .ok (by decide)).2.1

/-- A concrete request presenting token `"T"` via the query parameter and
invoking the `hello` tool. -/
def reqT : McpRequest where
  httpMethod := "POST"
  queryToken := some "T"
  headerToken := none
  body := some { method := some "tools/call", paramsName := some "hello" }
  xForwardedFor := none
  remoteAddress := some "127.0.0.1"
  userAgentHeader := some "curl/8.0"
  hourKey := "2026-10-11T00:00"
  timestamp := 5

/-- A concrete server state whose cache already holds a session for `"T"`. -/
def stT : ServerState where
  transports := [("T", { id := 0, clientAuth := "T" })]
  nextId := 1
  analytics := initialAnalytics

/-- A concrete server state with an empty session cache. -/
def stEmpty : ServerState where
  transports := []
  nextId := 0
  analytics := initialAnalytics

/-- C2: The session cache is idempotent per credential
(`http-server.ts:517-526`): when a session is already cached for the resolved
token, the handler uses exactly that session and allocates nothing new (cache
and allocation counter unchanged); a new session is constructed — consuming
one fresh allocation id and extending the cache at the token — only when the
token was previously unseen. -/
theorem c2_cache_idempotent (st : ServerState) (req : McpRequest)
    (envToken : String) (outcome : ForwardOutcome)
    (h : resolveToken req.queryToken req.headerToken envToken ≠ "") :
    (∀ s : Session,
      lookupAssoc st.transports (resolveToken req.queryToken req.headerToken envToken) = some s →
        (handleMcp st req envToken outcome).session = some s ∧
        (handleMcp st req envToken outcome).state.transports = st.transports ∧
        (handleMcp st req envToken outcome).state.nextId = st.nextId) ∧
    (lookupAssoc st.transports (resolveToken req.queryToken req.headerToken envToken) = none →
        (handleMcp st req envToken outcome).session =
          some { id := st.nextId, clientAuth := resolveToken req.queryToken req.headerToken envToken } ∧
        (handleMcp st req envToken outcome).state.transports =
          setAssoc st.transports (resolveToken req.queryToken req.headerToken envToken)
            { id := st.nextId, clientAuth := resolveToken req.queryToken req.headerToken envToken } ∧
        (handleMcp st req envToken outcome).state.nextId = st.nextId + 1) := by
  constructor
  · intro s hl
    simp only [handleMcp, hl, if_neg h]
    exact ⟨trivial, trivial, trivial⟩
  · intro hl
    simp only [handleMcp, hl, if_neg h]
    exact ⟨trivial, trivial, trivial⟩

/-- Witness for C2 at a concrete input: a second request bearing `"T"` against
a cache already holding a session for `"T"` reuses it without allocation. -/
theorem c2_cache_idempotent_witness :
    resolveToken (some "T") none "" ≠ "" ∧
    lookupAssoc stT.transports (resolveToken (some "T") none "") =
      some { id := 0, clientAuth := "T" } ∧
    ((handleMcp stT reqT "" .ok).session = some { id := 0, clientAuth := "T" } ∧
      (handleMcp stT reqT "" .ok).state.transports = stT.transports ∧
      (handleMcp stT reqT "" .ok).state.nextId = stT.nextId) :=
  ⟨by decide, by decide,
    (c2_cache_idempotent stT reqT "" .ok (by decide)).1
      { id := 0, clientAuth := "T" } (by decide)⟩

/-- C10 (implicit): an empty-string credential never wins precedence — an
empty query parameter falls through to the header, an empty header falls
through to the configured default — the request is answered with the 401
rejection exactly when all three sources are empty/absent, and consequently a
session is only ever cached under, and bound to, a non-empty token. -/
theorem c10_empty_never_wins (st : ServerState) (req : McpRequest)
    (envToken : String) (outcome : ForwardOutcome) :
    (∀ (hdr : Option String) (env2 : String),
      resolveToken (some "") hdr env2 = resolveToken none hdr env2) ∧
    (∀ (qp : Option String) (env2 : String),
      resolveToken qp (some "") env2 = resolveToken qp none env2) ∧
    ((handleMcp st req envToken outcome).writes = [.statusJson 401 body401] ↔
      resolveToken req.queryToken req.headerToken envToken = "") ∧
    (cacheKeysNonEmpty st.transports →
      cacheKeysNonEmpty (handleMcp st req envToken outcome).state.transports) ∧
    (cacheConsistent st.transports →
      ∀ s : Session, (handleMcp st req envToken outcome).session = some s →
        s.clientAuth ≠ "") := by
  refine ⟨fun hdr env2 => rfl, fun qp env2 => rfl, ?_, ?_, ?_⟩
  · constructor
    · intro hw
      by_contra h
      rcases hl : lookupAssoc st.transports (resolveToken req.queryToken req.headerToken envToken)
        with _ | s
      · simp only [handleMcp, hl, if_neg h] at hw
        cases outcome with
        | ok => simp [forwardWrites] at hw
        | throwErr sent =>
          cases sent <;> simp [forwardWrites, body500, body401] at hw
      · simp only [handleMcp, hl, if_neg h] at hw
        cases outcome with
        | ok => simp [forwardWrites] at hw
        | throwErr sent =>
          cases sent <;> simp [forwardWrites, body500, body401] at hw
    · intro h
      exact (c4_missing_token_rejected st req envToken outcome h).1
  · intro hne
    by_cases h : resolveToken req.queryToken req.headerToken envToken = ""
    · simpa [handleMcp, h] using hne
    · rcases hl : lookupAssoc st.transports (resolveToken req.queryToken req.headerToken envToken)
        with _ | s
      · simp only [handleMcp, hl, if_neg h]
        exact setAssoc_keysNonEmpty hne h _
      · simpa only [handleMcp, hl, if_neg h] using hne
  · intro hm s hs
    by_cases h : resolveToken req.queryToken req.headerToken envToken = ""
    · simp [handleMcp, h] at hs
    · rcases hl : lookupAssoc st.transports (resolveToken req.queryToken req.headerToken envToken)
        with _ | s'
      · simp only [handleMcp, hl, if_neg h] at hs
        injection hs with hs2
        rw [← hs2]
        exact h
      · simp only [handleMcp, hl, if_neg h] at hs
        injection hs with hs2
        rw [← hs2]
        rw [lookupAssoc_consistent hm hl]
        exact h

/-- Witness for C10 at a concrete input: against the empty cache, a request
bearing `"T"` only via the query parameter stores a session whose bound
credential is the non-empty `"T"`. -/
theorem c10_empty_never_wins_witness :
    cacheConsistent stEmpty.transports ∧
    ((handleMcp stEmpty reqT "" .ok).session = some { id := 0, clientAuth := "T" }) ∧
    ({ id := 0, clientAuth := "T" } : Session).clientAuth ≠ "" := by
  have hc : cacheConsistent stEmpty.transports := by
    intro p hp; simp [stEmpty] at hp
  have hs : (handleMcp stEmpty reqT "" .ok).session = some { id := 0, clientAuth := "T" } := by
    exact ((c2_cache_idempotent stEmpty reqT "" .ok (by decide)).2 (by decide)).1
  exact ⟨hc, hs, (c10_empty_never_wins stEmpty reqT "" .ok).2.2.2.2 hc _ hs⟩

/-- C9: an uncaught exception escaping the forwarding of a payload into a
session is answered with HTTP 500 and JSON-RPC error code `-32603` if and only
if no response bytes have been sent yet; when the response was already
partially sent, nothing further is written (`http-server.ts:529-541`). -/
theorem c9_internal_error_policy (st : ServerState) (req : McpRequest)
    (envToken : String) (sent : Bool)
    (h : resolveToken req.queryToken req.headerToken envToken ≠ "") :
    ((WriteEvent.statusJson 500 body500 ∈ (handleMcp st req envToken (.throwErr sent)).writes) ↔
      sent = false) ∧
    (sent = false →
      (handleMcp st req envToken (.throwErr sent)).writes = [.statusJson 500 body500] ∧
      body500.error.code = -32603 ∧ body500.id = none) ∧
    (sent = true →
      ∃ sid : Nat, (handleMcp st req envToken (.throwErr sent)).writes = [.transportBytes sid]) := by
  rcases hl : lookupAssoc st.transports (resolveToken req.queryToken req.headerToken envToken)
    with _ | s
  all_goals
    simp only [handleMcp, hl, if_neg h]
    cases sent <;> simp [forwardWrites]
    exact ⟨rfl, rfl⟩

/-- Witness for C9 at a concrete input: a throw before any bytes were sent
yields exactly the single 500 response with code `-32603`. -/
theorem c9_internal_error_policy_witness :
    resolveToken (some "T") none "" ≠ "" ∧
    ((handleMcp stT reqT "" (.throwErr false)).writes = [.statusJson 500 body500] ∧
      body500.error.code = -32603 ∧ body500.id = none) :=
  ⟨by decide, (c9_internal_error_policy stT reqT "" false (by decide)).2.1 rfl⟩

/-- The session used by a request equals the cached or freshly constructed
session for the resolved token, and is bound to exactly that token. -/
theorem handleMcp_session_auth (st : ServerState) (req : McpRequest)
    (envToken : String) (outcome : ForwardOutcome)
    (hm : cacheConsistent st.transports)
    (h : resolveToken req.queryToken req.headerToken envToken ≠ "") :
    ∀ s : Session, (handleMcp st req envToken outcome).session = some s →
      s.clientAuth = resolveToken req.queryToken req.headerToken envToken := by
  intro s hs
  rcases hl : lookupAssoc st.transports (resolveToken req.queryToken req.headerToken envToken)
    with _ | s'
  · simp only [handleMcp, hl, if_neg h] at hs
    injection hs with hs2
    rw [← hs2]
  · simp only [handleMcp, hl, if_neg h] at hs
    injection hs with hs2
    rw [← hs2]
    exact lookupAssoc_consistent hm hl

/-- One pass of the handler preserves the cache-consistency invariant. -/
theorem handleMcp_preserves_consistent (st : ServerState) (req : McpRequest)
    (envToken : String) (outcome : ForwardOutcome)
    (hm : cacheConsistent st.transports) :
    cacheConsistent (handleMcp st req envToken outcome).state.transports := by
  by_cases h : resolveToken req.queryToken req.headerToken envToken = ""
  · simpa [handleMcp, h] using hm
  · rcases hl : lookupAssoc st.transports (resolveToken req.queryToken req.headerToken envToken)
      with _ | s
    · simp only [handleMcp, hl, if_neg h]
      exact setAssoc_consistent hm rfl
    · simpa only [handleMcp, hl, if_neg h] using hm

/-- C5: credential isolation. Starting from a consistent cache, two requests
presenting different non-empty credentials use sessions whose bound upstream
clients carry exactly the respective credential that created them; in
particular the sessions are distinct, and a tool invocation under credential A
runs against a client bound to A, never to B. -/
theorem c5_credential_isolation (st : ServerState) (reqA reqB : McpRequest)
    (envA envB : String) (oA oB : ForwardOutcome) (sA sB : Session)
    (hm : cacheConsistent st.transports)
    (hA : resolveToken reqA.queryToken reqA.headerToken envA ≠ "")
    (hB : resolveToken reqB.queryToken reqB.headerToken envB ≠ "")
    (hAB : resolveToken reqA.queryToken reqA.headerToken envA ≠
           resolveToken reqB.queryToken reqB.headerToken envB)
    (hsA : (handleMcp st reqA envA oA).session = some sA)
    (hsB : (handleMcp (handleMcp st reqA envA oA).state reqB envB oB).session = some sB) :
    sA.clientAuth = resolveToken reqA.queryToken reqA.headerToken envA ∧
    sB.clientAuth = resolveToken reqB.queryToken reqB.headerToken envB ∧
    sA ≠ sB ∧ sA.clientAuth ≠ sB.clientAuth := by
  have h1 := handleMcp_session_auth st reqA envA oA hm hA sA hsA
  have hm2 := handleMcp_preserves_consistent st reqA envA oA hm
  have h2 := handleMcp_session_auth _ reqB envB oB hm2 hB sB hsB
  have hne : sA.clientAuth ≠ sB.clientAuth := by
    rw [h1, h2]; exact hAB
  exact ⟨h1, h2, fun he => hne (he ▸ rfl), hne⟩

/-- A concrete request presenting token `"B"` via the `X-GitHub-Token`
header. -/
def reqB0 : McpRequest where
  httpMethod := "POST"
  queryToken := none
  headerToken := some "B"
  body := some { method := some "tools/call", paramsName := some "get_issue" }
  xForwardedFor := some "10.0.0.1, 10.0.0.2"
  remoteAddress := none
  userAgentHeader := some "node"
  hourKey := "2026-10-11T01:00"
  timestamp := 9

/-- Witness for C5 at a concrete input: requests bearing `"T"` and `"B"`
against the empty cache use sessions bound to `"T"` and `"B"` respectively. -/
theorem c5_credential_isolation_witness :
    cacheConsistent stEmpty.transports ∧
    (({ id := 0, clientAuth := "T" } : Session).clientAuth = resolveToken (some "T") none "" ∧
      ({ id := 1, clientAuth := "B" } : Session).clientAuth = resolveToken none (some "B") "" ∧
      ({ id := 0, clientAuth := "T" } : Session) ≠ { id := 1, clientAuth := "B" } ∧
      ({ id := 0, clientAuth := "T" } : Session).clientAuth ≠
        ({ id := 1, clientAuth := "B" } : Session).clientAuth) := by
  have hc : cacheConsistent stEmpty.transports := by
    intro p hp; simp [stEmpty] at hp
  refine ⟨hc, c5_credential_isolation stEmpty reqT reqB0 "" "" .ok .ok
    { id := 0, clientAuth := "T" } { id := 1, clientAuth := "B" }
    hc (by decide) (by decide) (by decide) ?_ ?_⟩
  · exact ((c2_cache_idempotent stEmpty reqT "" .ok (by decide)).2 (by decide)).1
  · exact ((c2_cache_idempotent (handleMcp stEmpty reqT "" .ok).state reqB0 "" .ok
      (by decide)).2 (by decide)).1

/-- C8: for a request with a resolved credential whose payload is a
`tools/call` with a (non-empty) tool name, the telemetry recorder is notified
— the tool-call counters and the recent-calls list are updated and the
tracking event precedes the forwarding event — for every forwarding outcome,
i.e. regardless of whether the tool later succeeds, fails, or does not exist
(`http-server.ts:511-513`). -/
theorem c8_tool_call_tracked_first (st : ServerState) (req : McpRequest)
    (envToken : String) (outcome : ForwardOutcome)
    (h : resolveToken req.queryToken req.headerToken envToken ≠ "")
    (ht : isToolCallBody req.body = true) :
    (handleMcp st req envToken outcome).state.analytics.totalToolCalls =
      st.analytics.totalToolCalls + 1 ∧
    (handleMcp st req envToken outcome).state.analytics.toolCalls (toolNameOf req.body) =
      st.analytics.toolCalls (toolNameOf req.body) + 1 ∧
    (handleMcp st req envToken outcome).state.analytics.recentToolCalls.head? =
      some { tool := toolNameOf req.body, timestamp := req.timestamp,
             clientIp := getClientIp req.xForwardedFor req.remoteAddress } ∧
    (∃ rest : List Event,
      (handleMcp st req envToken outcome).events =
        Event.trackedRequest ::
          Event.trackedToolCall (toolNameOf req.body)
            (getClientIp req.xForwardedFor req.remoteAddress) :: rest ∧
      ∃ sid : Nat, Event.forwarded sid ∈ rest) := by
  rcases hl : lookupAssoc st.transports (resolveToken req.queryToken req.headerToken envToken)
    with _ | s
  · simp only [handleMcp, hl, if_neg h, ht, if_pos]
    refine ⟨rfl, by simp [trackToolCall, trackRequest, bump], trackToolCall_head _ _ _ _, ?_⟩
    exact ⟨_, rfl, st.nextId, by simp⟩
  · simp only [handleMcp, hl, if_neg h, ht, if_pos]
    refine ⟨rfl, by simp [trackToolCall, trackRequest, bump], trackToolCall_head _ _ _ _, ?_⟩
    exact ⟨_, rfl, s.id, by simp⟩

/-- Witness for C8 at a concrete input: the `hello` invocation of `reqT` is
counted and ordered before forwarding even when the forward throws. -/
theorem c8_tool_call_tracked_first_witness :
    resolveToken (some "T") none "" ≠ "" ∧ isToolCallBody reqT.body = true ∧
    ((handleMcp stT reqT "" (.throwErr false)).state.analytics.totalToolCalls =
        stT.analytics.totalToolCalls + 1 ∧
      (handleMcp stT reqT "" (.throwErr false)).state.analytics.toolCalls (toolNameOf reqT.body) =
        stT.analytics.toolCalls (toolNameOf reqT.body) + 1 ∧
      (handleMcp stT reqT "" (.throwErr false)).state.analytics.recentToolCalls.head? =
        some { tool := toolNameOf reqT.body, timestamp := reqT.timestamp,
               clientIp := getClientIp reqT.xForwardedFor reqT.remoteAddress } ∧
      (∃ rest : List Event,
        (handleMcp stT reqT "" (.throwErr false)).events =
          Event.trackedRequest ::
            Event.trackedToolCall (toolNameOf reqT.body)
              (getClientIp reqT.xForwardedFor reqT.remoteAddress) :: rest ∧
        ∃ sid : Nat, Event.forwarded sid ∈ rest)) :=
  ⟨by decide, by decide,
    c8_tool_call_tracked_first stT reqT "" (.throwErr false) (by decide) (by decide)⟩

/-- C3 counterexample: under the event-loop interleaving the handler's own
suspension point admits (`http-server.ts:517-526` checks the cache, then
suspends at `await mcpServer.server.connect(transport)` *before* running
`transports.set`), two concurrent first-requests for the same unseen token
`"T"` — schedule: both run to their connect await, then both resume — each
construct their own Session, and each forwards through its own: two Sessions
are constructed (`nextId = 2`) and two divergent Sessions are both used,
contradicting the claim that exactly one Session is constructed and every
caller observes the same single instance. -/
theorem c3_single_session_cex :
    (raceRun raceInit2 [0, 1, 0, 1, 0, 1]).nextId = 2 ∧
    (raceRun raceInit2 [0, 1, 0, 1, 0, 1]).threads =
      [{ token := "T", pc := .done { id := 0, clientAuth := "T" } },
       { token := "T", pc := .done { id := 1, clientAuth := "T" } }] ∧
    ({ id := 0, clientAuth := "T" } : Session) ≠ { id := 1, clientAuth := "T" } ∧
    (raceRun raceInit2 [0, 1, 0, 1, 0, 1]).transports =
      [("T", { id := 1, clientAuth := "T" })] := by decide

/-- C3 (amended): a request whose cache lookup finds a Session for its token
adopts it and constructs nothing; consequently, when first-requests do not
interleave between cache lookup and cache store — here: two requests for the
same unseen token run to completion one after the other — exactly one Session
is constructed and every caller uses that same single Session.  (Interleaved
first-requests may each construct and use their own Session, the cache
retaining the last one stored, as the counterexample shows.) -/
theorem c3_single_session_amended :
    (∀ (cache : List (String × Session)) (n : Nat) (t : Thread) (s : Session),
      t.pc = .start → lookupAssoc cache t.token = some s →
        stepThread cache n t = (cache, n, { t with pc := .handling s })) ∧
    ((raceRun raceInit2 [0, 0, 0, 1, 1, 1]).nextId = 1 ∧
      (raceRun raceInit2 [0, 0, 0, 1, 1, 1]).threads =
        [{ token := "T", pc := .done { id := 0, clientAuth := "T" } },
         { token := "T", pc := .done { id := 0, clientAuth := "T" } }] ∧
      (raceRun raceInit2 [0, 0, 0, 1, 1, 1]).transports =
        [("T", { id := 0, clientAuth := "T" })]) := by
  refine ⟨?_, by decide⟩
  intro cache n t s hpc hl
  obtain ⟨tok, pc⟩ := t
  simp only at hpc
  subst hpc
  simp [stepThread, hl]

/-- Witness for C3 (amended) at a concrete input: a thread at its start step
finding `"T"` cached adopts the cached session without allocating. -/
theorem c3_single_session_amended_witness :
    (({ token := "T", pc := .start } : Thread).pc = .start) ∧
    lookupAssoc [("T", { id := 7, clientAuth := "T" })]
      ({ token := "T", pc := .start } : Thread).token = some { id := 7, clientAuth := "T" } ∧
    stepThread [("T", { id := 7, clientAuth := "T" })] 9 { token := "T", pc := .start } =
      ([("T", { id := 7, clientAuth := "T" })], 9,
        { token := "T", pc := .handling { id := 7, clientAuth := "T" } }) :=
  ⟨rfl, by decide,
    c3_single_session_amended.1 [("T", { id := 7, clientAuth := "T" })] 9
      { token := "T", pc := .start } { id := 7, clientAuth := "T" } rfl (by decide)⟩

end McpGithub
